import Mathlib

/-!
Shallow embedding of `src/src/mod.ts` (package `@m4rc3l05/process-lifecycle`),
the lifecycle orchestrator class `ProcessLifecycle`.

Modelling choices, each tied to the source:
* Service boot results are modelled as `Nat` values; a thrown JS value is a
  `JsError`.  The error universe also contains the constructors named by the
  spec's error taxonomy (`serviceLifecycleError`, `serviceTimeoutExceededError`)
  so that statements about them can be expressed; `src/src/mod.ts` itself only
  ever constructs `plain` errors and `globalTimeoutExceededError`
  (lines 193 and 197).
* A service callable together with the two timers of the race
  (`Promise.race` at lines 179-190) is modelled by the race's settled outcome
  `RaceOutcome`, chosen by the environment per registration and per mode:
  the callable resolves first, the callable rejects first, the per-service
  timer fires first (the string sentinel `"timeout"`), or the global timer
  fires first (the sentinel `"global-timeout"`).  Real durations
  (`timeout`, `bootTimeout`, `shutdownTimeout`, lines 63-76 and 93-99) are kept
  in the state for fidelity but do not constrain outcomes, since the model does
  not measure time.  No step runs after a global-timeout outcome in either
  mode (both modes abort, line 216), so the one-shot nature of the global
  timer needs no extra constraint.
* Event handlers (`on`, lines 109-114) are arbitrary caller code; the model
  keeps what matters to the control flow: a handler either returns or throws a
  chosen error.  The old source stores handlers unwrapped, so a throwing
  handler propagates into the lifecycle's try/catch structure exactly as the
  JS code would let it.
* Execution is sequential (the runner awaits every step), so the async
  functions become state-passing functions.  A function returning
  `ProcState × Option JsError` models an async method whose promise resolves
  (`none`) or rejects (`some e`).
-/

namespace ProcessLifecycle

/-- The two directions of `#executeLifecycle(mode)`. -/
inductive Mode where
  | boot
  | shutdown
  deriving DecidableEq

/-- True exactly on `boot`, mirroring the source's `mode === "boot"` tests. -/
def Mode.isBoot : Mode → Bool
  | .boot => true
  | .shutdown => false

/-- True exactly on `shutdown`, mirroring `mode === "shutdown"` tests. -/
def Mode.isShutdown : Mode → Bool
  | .boot => false
  | .shutdown => true

/-- JS error values that can flow through the lifecycle.  The source
constructs `plain` (`new Error("Service boot timeout exceeded")`, line 193)
and `globalTimeoutExceededError` (`new GlobalTimeoutExceededError("Global
timeout exceeded")`, line 197); `thrown` stands for an arbitrary value raised
by a service callable or an event handler.  `serviceLifecycleError` and
`serviceTimeoutExceededError` are the wrapper classes named by the spec's
error taxonomy; they exist in the universe so claims about them can be
stated, and `src/src/mod.ts` never builds them. -/

inductive JsError where
  | thrown (id : Nat)
  | plain (msg : String)
  | globalTimeoutExceededError (msg : String)
  | serviceLifecycleError (name : String) (mode : Mode) (cause : JsError)
  | serviceTimeoutExceededError (name : String) (mode : Mode) (timeout : Nat)
  deriving DecidableEq

/-- The `error instanceof GlobalTimeoutExceededError` test of line 216. -/
def isGlobalTimeoutInstance : JsError → Bool
  | .globalTimeoutExceededError _ => true
  | _ => false

/-- The settled result of the three-way `Promise.race` of lines 179-190 for
one step: the callable resolved with a value, the callable rejected, the
per-service timer won (sentinel `"timeout"`), or the global timer won
(sentinel `"global-timeout"`). -/

inductive RaceOutcome where
  | ok (v : Nat)
  | err (e : JsError)
  | timedOut
  | globalTimedOut
  deriving DecidableEq

/-- The value of an `ok` outcome (0 otherwise; unused in that case). -/
def RaceOutcome.val : RaceOutcome → Nat
  | .ok v => v
  | _ => 0

/-- Whether the outcome is a success of the callable. -/
def RaceOutcome.isOk : RaceOutcome → Bool
  | .ok _ => true
  | _ => false

/-- A staged service registration with the `timeout` already normalized
(line 127) and the callables replaced by their race outcomes per mode.
`id` is the registration's position in the staged list, identifying the
underlying callable pair. -/

structure Registration where
  id : Nat
  name : String
  timeout : Nat
  bootOutcome : RaceOutcome
  shutdownOutcome : RaceOutcome
  deriving DecidableEq

/-- The argument of `registerService` (lines 120-129): a name, an optional
per-service timeout, and the behaviours of the two callables. -/

structure RegistrationInput where
  name : String
  timeout : Option Nat
  bootOutcome : RaceOutcome
  shutdownOutcome : RaceOutcome
  deriving DecidableEq

/-- The eight event names of `ProcessLifecycleEvents` (lines 39-56). -/
inductive EventKey where
  | bootStarted
  | bootEnded
  | shutdownStarted
  | shutdownEnded
  | bootServiceStarted
  | bootServiceEnded
  | shutdownServiceStarted
  | shutdownServiceEnded
  deriving DecidableEq

/-- An emitted event with its payload, as recorded in the run's trace. -/
inductive Event where
  | started (m : Mode)
  | serviceStarted (m : Mode) (name : String)
  | serviceEnded (m : Mode) (name : String) (error : Option JsError)
  | ended (m : Mode) (error : Option JsError)
  deriving DecidableEq

/-- The handler-table key an event is dispatched under. -/
def Event.key : Event → EventKey
  | .started .boot => .bootStarted
  | .started .shutdown => .shutdownStarted
  | .serviceStarted .boot _ => .bootServiceStarted
  | .serviceStarted .shutdown _ => .shutdownServiceStarted
  | .serviceEnded .boot _ _ => .bootServiceEnded
  | .serviceEnded .shutdown _ _ => .shutdownServiceEnded
  | .ended .boot _ => .bootEnded
  | .ended .shutdown _ => .shutdownEnded

/-- Behaviour of one registered event handler when invoked: it returns
normally or throws.  The source stores the caller's function unwrapped
(line 113), so a throw propagates into the runner. -/

inductive HandlerBehavior where
  | returns
  | throws (e : JsError)
  deriving DecidableEq

/-- A record of one callable invocation made by the runner: the mode, the
registration's identity and name, and for shutdown mode the argument
`this.#services.get(name)` the callable received (line 182); boot callables
receive the orchestrator itself (line 184), recorded as `none`. -/

structure Call where
  mode : Mode
  id : Nat
  name : String
  arg : Option Nat
  deriving DecidableEq

/-- The constructor options (lines 93-99), defaults applied. -/
structure Options where
  bootTimeout : Nat := 15000
  shutdownTimeout : Nat := 15000
  deriving DecidableEq

/-- JS `Map.get`: the stored value for the key, if present.  A JS `Map`
holds at most one entry per key, so first-match lookup over the
insertion-ordered entry list is exact. -/

def mapGet : List (String × Nat) → String → Option Nat
  | [], _ => none
  | p :: t, k => if p.1 = k then some p.2 else mapGet t k

/-- JS `Map.set`: overwrite the entry in place if the key exists, else
append at the end. -/

def mapSet : List (String × Nat) → String → Nat → List (String × Nat)
  | [], k, v => [(k, v)]
  | p :: t, k, v => if p.1 = k then (k, v) :: t else p :: mapSet t k v

/-- JS `Map.delete`: remove the (unique) entry for the key. -/
def mapDelete : List (String × Nat) → String → List (String × Nat)
  | [], _ => []
  | p :: t, k => if p.1 = k then t else p :: mapDelete t k

/-- Handler-table lookup (`#eventsHandlers.get`, line 150). -/
def hGet : List (EventKey × HandlerBehavior) → EventKey →
    Option HandlerBehavior
  | [], _ => none
  | p :: t, k => if p.1 = k then some p.2 else hGet t k

/-- Handler-table update (`#eventsHandlers.set`, line 113): overwrite any
previous handler for the event. -/

def hSet : List (EventKey × HandlerBehavior) → EventKey → HandlerBehavior →
    List (EventKey × HandlerBehavior)
  | [], k, b => [(k, b)]
  | p :: t, k, b => if p.1 = k then (k, b) :: t else p :: hSet t k b

/-- The mutable state of one `ProcessLifecycle` instance (lines 78-91),
plus the observable trace of emitted events and callable invocations.
`bootProcess` and `shutdownProcess` model the presence of the memoized
promises stored under `bootProcessSymbol` / `shutdownProcessSymbol`. -/

structure ProcState where
  aborted : Bool := false
  serviceRegistrationsStaged : List Registration := []
  serviceRegistrations : List Registration := []
  services : List (String × Nat) := []
  options : Options := {}
  booted : Bool := false
  eventsHandlers : List (EventKey × HandlerBehavior) := []
  bootProcess : Bool := false
  shutdownProcess : Bool := false
  trace : List Event := []
  calls : List Call := []

/-- A freshly constructed instance. -/
def initState : ProcState := {}

/-- The `on` method (lines 109-114). -/
def onEvent (st : ProcState) (k : EventKey) (b : HandlerBehavior) :
    ProcState :=
  { st with eventsHandlers := hSet st.eventsHandlers k b }

/-- The `getService` method (lines 116-118); JS returns `undefined`
(`none`) for an absent name. -/

def getService (st : ProcState) (name : String) : Option Nat :=
  mapGet st.services name

/-- The `registerService` method (lines 120-129): silently no-ops once the
abort signal is set, otherwise normalizes the timeout to 5000 and appends to
the staged list.  The fresh registration's `id` is its staged position. -/

def registerService (st : ProcState) (i : RegistrationInput) : ProcState :=
  if st.aborted then st
  else
    { st with
      serviceRegistrationsStaged := st.serviceRegistrationsStaged ++
        [{ id := st.serviceRegistrationsStaged.length
           name := i.name
           timeout := i.timeout.getD 5000
           bootOutcome := i.bootOutcome
           shutdownOutcome := i.shutdownOutcome }] }

/-- The state effect of an emission: the event is appended to the trace. -/
def emitTrace (st : ProcState) (ev : Event) : ProcState :=
  { st with trace := st.trace ++ [ev] }

/-- The exception effect of an emission: `#getHandler(ev)?.(payload)` throws
exactly when a handler is registered for the event and that handler throws
(the source stores handlers unwrapped, line 113). -/

def emitErr (hs : List (EventKey × HandlerBehavior)) (ev : Event) :
    Option JsError :=
  match hGet hs ev.key with
  | some (.throws e) => some e
  | _ => none

/-- The inner `catch` of one loop iteration (lines 210-219): emit
`{mode}ServiceEnded` with the error, then re-raise when in boot mode or when
the error is a `GlobalTimeoutExceededError` instance.  If the emission's
handler itself throws, that throw propagates to the outer catch. -/

def stepCatch (m : Mode) (st : ProcState) (r : Registration) (e : JsError) :
    ProcState × Option JsError :=
  let st1 := emitTrace st (Event.serviceEnded m r.name (some e))
  match emitErr st.eventsHandlers (Event.serviceEnded m r.name (some e)) with
  | some e2 => (st1, some e2)
  | none =>
    if m.isBoot || isGlobalTimeoutInstance e then (st1, some e)
    else (st1, none)

/-- One iteration of the `for` loop of lines 173-220.  Returns the state and
`some e` exactly when the iteration aborted the loop by (re-)raising `e`. -/

def runStep (m : Mode) (st : ProcState) (r : Registration) :
    ProcState × Option JsError :=
  let stA := emitTrace st (Event.serviceStarted m r.name)
  match emitErr st.eventsHandlers (Event.serviceStarted m r.name) with
  | some e => (stA, some e)
  | none =>
    let arg : Option Nat :=
      if m.isShutdown then mapGet stA.services r.name else none
    let stB := { stA with calls := stA.calls ++ [⟨m, r.id, r.name, arg⟩] }
    match (if m.isShutdown then r.shutdownOutcome else r.bootOutcome) with
    | RaceOutcome.ok v =>
      let stC :=
        if m.isShutdown then
          { stB with services := mapDelete stB.services r.name }
        else
          { stB with
            serviceRegistrations := stB.serviceRegistrations ++ [r]
            services := mapSet stB.services r.name v }
      let stD := emitTrace stC (Event.serviceEnded m r.name none)
      match emitErr stC.eventsHandlers (Event.serviceEnded m r.name none) with
      | none => (stD, none)
      | some e => stepCatch m stD r e
    | RaceOutcome.err e => stepCatch m stB r e
    | RaceOutcome.timedOut =>
      stepCatch m stB r (JsError.plain "Service boot timeout exceeded")
    | RaceOutcome.globalTimedOut =>
      stepCatch m stB r
        (JsError.globalTimeoutExceededError "Global timeout exceeded")

/-- The whole `for` loop: run steps in order until one aborts. -/
def runSteps (m : Mode) : ProcState → List Registration →
    ProcState × Option JsError
  | st, [] => (st, none)
  | st, r :: rest =>
    match runStep m st r with
    | (st1, some e) => (st1, some e)
    | (st1, none) => runSteps m st1 rest

/-- How one `#executeLifecycle` call finished: the `try` block completed,
an exception was caught and `{mode}Ended` emitted with it, or the catch
block's own emission threw so the method's promise rejects. -/

inductive PassExit where
  | completed
  | caught
  | rejected (e : JsError)
  deriving DecidableEq

/-- The outer `catch` of lines 228-233 up to the mode test: emit
`{mode}Ended { error }`; if that handler throws, the pass rejects. -/

def passCatch (m : Mode) (st : ProcState) (e : JsError) :
    ProcState × PassExit :=
  let st1 := emitTrace st (Event.ended m (some e))
  match emitErr st.eventsHandlers (Event.ended m (some e)) with
  | some e2 => (st1, PassExit.rejected e2)
  | none => (st1, PassExit.caught)

/-- One `#executeLifecycle(mode)` pass (lines 155-238) without the
boot-failure tail call: choose the registrations (staged in order for boot,
active reversed for shutdown, lines 157-159), set the abort signal in
shutdown mode (lines 166-168), emit `{mode}Started`, run the loop, then on
completion set `booted = (mode === "boot")` and emit `{mode}Ended {}`
(lines 222-227).  Timer cancellation (lines 223 and 230) has no observable
effect in the model. -/

def runPass (m : Mode) (st0 : ProcState) : ProcState × PassExit :=
  let regs :=
    if m.isShutdown then st0.serviceRegistrations.reverse
    else st0.serviceRegistrationsStaged
  let st := if m.isShutdown then { st0 with aborted := true } else st0
  let st1 := emitTrace st (Event.started m)
  match emitErr st.eventsHandlers (Event.started m) with
  | some e => passCatch m st1 e
  | none =>
    match runSteps m st1 regs with
    | (st2, some e) => passCatch m st2 e
    | (st2, none) =>
      let st3 := { st2 with booted := m.isBoot }
      let st4 := emitTrace st3 (Event.ended m none)
      match emitErr st3.eventsHandlers (Event.ended m none) with
      | some e => passCatch m st4 e
      | none => (st4, PassExit.completed)

/-- A full `#executeLifecycle("shutdown")` call: its promise rejects only
when the catch block's `{mode}Ended` handler threw. -/

def executeShutdown (st : ProcState) : ProcState × Option JsError :=
  match runPass Mode.shutdown st with
  | (st1, PassExit.rejected e) => (st1, some e)
  | (st1, _) => (st1, none)

/-- A full `#executeLifecycle("boot")` call: on a caught failure the source
directly invokes `this.#executeLifecycle("shutdown")` (line 235) — not the
memoizing `shutdown()` wrapper — and the boot promise settles with that
shutdown's result. -/

def executeBoot (st : ProcState) : ProcState × Option JsError :=
  match runPass Mode.boot st with
  | (st1, PassExit.rejected e) => (st1, some e)
  | (st1, PassExit.caught) => executeShutdown st1
  | (st1, PassExit.completed) => (st1, none)

/-- The private `#executeLifecycle(mode)` dispatcher. -/
def executeLifecycle : Mode → ProcState → ProcState × Option JsError
  | .boot, st => executeBoot st
  | .shutdown, st => executeShutdown st

/-- The public `boot` method (lines 131-137): start `#executeLifecycle`
only if no boot promise is memoized; later calls get the stored promise
without a second execution. -/

def boot (st : ProcState) : ProcState × Option JsError :=
  if st.bootProcess then (st, none)
  else executeLifecycle Mode.boot { st with bootProcess := true }

/-- The public `shutdown` method (lines 139-145), memoized the same way. -/
def shutdown (st : ProcState) : ProcState × Option JsError :=
  if st.shutdownProcess then (st, none)
  else executeLifecycle Mode.shutdown { st with shutdownProcess := true }

/-- Build an instance carrying the given handler table and then register
the given inputs in order. -/

def mkOrch (hs : List (EventKey × HandlerBehavior))
    (inputs : List RegistrationInput) : ProcState :=
  inputs.foldl registerService { initState with eventsHandlers := hs }

/-- A handler that does not throw. -/
def HandlerBehavior.isReturns : HandlerBehavior → Bool
  | .returns => true
  | .throws _ => false

/-- A handler table none of whose handlers throws when invoked. -/
def benign (hs : List (EventKey × HandlerBehavior)) : Bool :=
  hs.all (fun p => p.2.isReturns)

/-- The services map produced by recording the boot results of a list of
registrations in order. -/

def setAll : List (String × Nat) → List Registration → List (String × Nat)
  | m, [] => m
  | m, r :: rs => setAll (mapSet m r.name r.bootOutcome.val) rs

/-- State effect of a successful boot step (lines 200-209, boot branch):
both service events, the recorded invocation, the push onto
`#serviceRegistrations` and the `#services` entry. -/

def bootOkUpd (st : ProcState) (r : Registration) : ProcState :=
  { st with
    trace := st.trace ++ [Event.serviceStarted Mode.boot r.name,
      Event.serviceEnded Mode.boot r.name none]
    calls := st.calls ++ [⟨Mode.boot, r.id, r.name, none⟩]
    serviceRegistrations := st.serviceRegistrations ++ [r]
    services := mapSet st.services r.name r.bootOutcome.val }

/-- State effect of a successful shutdown step (lines 200-209, shutdown
branch): both service events, the recorded invocation with the stored boot
result as argument, and the `#services` deletion. -/

def shutdownOkUpd (st : ProcState) (r : Registration) : ProcState :=
  { st with
    trace := st.trace ++ [Event.serviceStarted Mode.shutdown r.name,
      Event.serviceEnded Mode.shutdown r.name none]
    calls := st.calls ++
      [⟨Mode.shutdown, r.id, r.name, mapGet st.services r.name⟩]
    services := mapDelete st.services r.name }

/-- State effect of a failed step under benign handlers: both service
events (the second carrying the error) and the recorded invocation. -/

def failUpd (m : Mode) (st : ProcState) (r : Registration) (arg : Option Nat)
    (e : JsError) : ProcState :=
  { st with
    trace := st.trace ++ [Event.serviceStarted m r.name,
      Event.serviceEnded m r.name (some e)]
    calls := st.calls ++ [⟨m, r.id, r.name, arg⟩] }

/-- The error the runner raises from a failed race outcome (lines 192-198):
the rejection value itself, `Error("Service boot timeout exceeded")` for the
per-service sentinel (the message hard-codes the word boot in both modes),
or `GlobalTimeoutExceededError("Global timeout exceeded")`. -/

def RaceOutcome.raised : RaceOutcome → JsError
  | .ok _ => JsError.plain ""
  | .err e => e
  | .timedOut => JsError.plain "Service boot timeout exceeded"
  | .globalTimedOut =>
    JsError.globalTimeoutExceededError "Global timeout exceeded"

/-- Whether a shutdown-mode step lets the loop continue (line 216): every
success continues, and a failure continues unless the caught error is a
`GlobalTimeoutExceededError` instance. -/

def shutdownContinues (r : Registration) : Bool :=
  match r.shutdownOutcome with
  | .ok _ => true
  | .err e => !isGlobalTimeoutInstance e
  | .timedOut => true
  | .globalTimedOut => false

/-- Combined state effect of a non-aborting shutdown step. -/
def shutdownStepUpd (st : ProcState) (r : Registration) : ProcState :=
  if r.shutdownOutcome.isOk then shutdownOkUpd st r
  else failUpd Mode.shutdown st r (mapGet st.services r.name)
    r.shutdownOutcome.raised

/-- The final state of a benign shutdown pass all of whose steps let the
loop continue. -/

def shutdownPassEnd (st : ProcState) : ProcState :=
  emitTrace
    { (st.serviceRegistrations.reverse.foldl shutdownStepUpd
        (emitTrace { st with aborted := true }
          (Event.started Mode.shutdown)))
      with booted := false }
    (Event.ended Mode.shutdown none)

/-- The identities of the shutdown-mode callable invocations, in order. -/
def shutdownCallIds (cs : List Call) : List Nat :=
  (cs.filter (fun c => c.mode.isShutdown)).map (fun c => c.id)

/-- C3 counterexample: with two staged registrations whose first boot
callable throws, the second registration's boot callable is never invoked,
so a boot pass does not invoke each staged registration's boot callable
exactly once. -/

def exC3c : ProcState := mkOrch []
  [⟨"f", none, RaceOutcome.err (JsError.thrown 1), RaceOutcome.ok 0⟩,
   ⟨"b", none, RaceOutcome.ok 2, RaceOutcome.ok 0⟩]

/-- C3 witness input: two registrations that both boot successfully. -/
def exC3w : ProcState := mkOrch []
  [⟨"f", none, RaceOutcome.ok 1, RaceOutcome.ok 0⟩,
   ⟨"b", none, RaceOutcome.ok 2, RaceOutcome.ok 0⟩]

/-- C1 witness input: service f boots to 1, service b's boot throws. -/
def exC1w : ProcState := mkOrch []
  [⟨"f", none, RaceOutcome.ok 1, RaceOutcome.ok 0⟩,
   ⟨"b", none, RaceOutcome.err (JsError.thrown 5), RaceOutcome.ok 0⟩]

/-- C4 witness inputs: two already-booted services, the later one failing
its shutdown with a plain error in one state and with the global timeout
in the other. -/

def exC4a : ProcState :=
  { serviceRegistrations :=
      [⟨0, "f", 5000, RaceOutcome.ok 1, RaceOutcome.ok 0⟩,
       ⟨1, "b", 5000, RaceOutcome.ok 2,
        RaceOutcome.err (JsError.thrown 3)⟩]
    services := [("f", 1), ("b", 2)] }

def exC4b : ProcState :=
  { serviceRegistrations :=
      [⟨0, "f", 5000, RaceOutcome.ok 1, RaceOutcome.ok 0⟩,
       ⟨1, "b", 5000, RaceOutcome.ok 2, RaceOutcome.globalTimedOut⟩]
    services := [("f", 1), ("b", 2)] }

/-- C2 scenario: f boots to 1, b's boot throws, so boot auto-triggers the
shutdown pass directly (line 235) without storing a shutdown promise. -/

def exC2 : ProcState := mkOrch []
  [⟨"f", none, RaceOutcome.ok 1, RaceOutcome.ok 0⟩,
   ⟨"b", none, RaceOutcome.err (JsError.thrown 5), RaceOutcome.ok 0⟩]

/-- C5 scenario A: both services boot, then service b's shutdown throws a
non-global error while f's shutdown succeeds. -/

def exC5 : ProcState := mkOrch []
  [⟨"f", none, RaceOutcome.ok 1, RaceOutcome.ok 0⟩,
   ⟨"b", none, RaceOutcome.ok 2, RaceOutcome.err (JsError.thrown 3)⟩]

/-- C5 scenario B: a single service whose boot throws. -/
def exC5b : ProcState := mkOrch []
  [⟨"b", none, RaceOutcome.err (JsError.thrown 7), RaceOutcome.ok 0⟩]

/-- C6 scenario: service b's boot throws a raw error; during the automatic
shutdown, service f's shutdown hits its per-service timeout. -/

def exC6 : ProcState := mkOrch []
  [⟨"f", none, RaceOutcome.ok 1, RaceOutcome.timedOut⟩,
   ⟨"b", none, RaceOutcome.err (JsError.thrown 7), RaceOutcome.ok 0⟩]

/-- C7 scenario: both services boot, then the global shutdown timeout wins
the race during service b's shutdown, aborting the pass. -/

def exC7 : ProcState := mkOrch []
  [⟨"f", none, RaceOutcome.ok 1, RaceOutcome.ok 0⟩,
   ⟨"b", none, RaceOutcome.ok 2, RaceOutcome.globalTimedOut⟩]

/-- C8 scenario A: no services, a `bootEnded` handler that throws. -/
def exC8 : ProcState :=
  onEvent initState EventKey.bootEnded
    (HandlerBehavior.throws (JsError.thrown 9))

/-- C8 scenario B: one service, a `bootStarted` handler that throws. -/
def exC8b : ProcState :=
  onEvent (mkOrch [] [⟨"f", none, RaceOutcome.ok 1, RaceOutcome.ok 0⟩])
    EventKey.bootStarted (HandlerBehavior.throws (JsError.thrown 4))

/-- C9 scenario: one service and one registered handler, booted and then
shut down. -/

def exC9 : ProcState :=
  onEvent (mkOrch [] [⟨"f", none, RaceOutcome.ok 1, RaceOutcome.ok 0⟩])
    EventKey.bootStarted HandlerBehavior.returns

/-- C10 scenario: two registrations sharing the name a, booting to 1 and
2 respectively. -/

def exC10 : ProcState := mkOrch []
  [⟨"a", none, RaceOutcome.ok 1, RaceOutcome.ok 0⟩,
   ⟨"a", none, RaceOutcome.ok 2, RaceOutcome.ok 0⟩]

theorem hGet_benign {hs : List (EventKey × HandlerBehavior)}
    (hb : benign hs = true) (k : EventKey) (e : JsError) :
    hGet hs k ≠ some (HandlerBehavior.throws e) := by
  induction hs with
  | nil => simp [hGet]
  | cons p t ih =>
    rw [benign, List.all_cons, Bool.and_eq_true] at hb
    rw [hGet]
    by_cases hp : p.1 = k
    · rw [if_pos hp]
      intro hcontra
      injection hcontra with h2
      rw [h2] at hb
      simp [HandlerBehavior.isReturns] at hb
    · rw [if_neg hp]
      exact ih hb.2

theorem emitErr_benign {hs : List (EventKey × HandlerBehavior)}
    (hb : benign hs = true) (ev : Event) : emitErr hs ev = none := by
  unfold emitErr
  cases h : hGet hs ev.key with
  | none => rfl
  | some b =>
    cases b with
    | returns => rfl
    | throws e => exact absurd h (hGet_benign hb ev.key e)

theorem mapGet_mapSet_self (m : List (String × Nat)) (k : String) (v : Nat) :
    mapGet (mapSet m k v) k = some v := by
  induction m with
  | nil => simp [mapSet, mapGet]
  | cons p t ih =>
    rw [mapSet]
    by_cases hp : p.1 = k
    · rw [if_pos hp, mapGet, if_pos rfl]
    · rw [if_neg hp, mapGet, if_neg hp]
      exact ih

theorem mapGet_mapSet_ne (m : List (String × Nat)) {k k2 : String} (v : Nat)
    (h : k2 ≠ k) : mapGet (mapSet m k v) k2 = mapGet m k2 := by
  have h1 : ¬(k = k2) := fun hc => h hc.symm
  induction m with
  | nil => simp [mapSet, mapGet, h1]
  | cons p t ih =>
    rw [mapSet]
    by_cases hp : p.1 = k
    · have h2 : ¬(p.1 = k2) := fun hc => h (hc ▸ hp)
      rw [if_pos hp]
      simp only [mapGet]
      simp [h1, h2]
    · rw [if_neg hp]
      simp only [mapGet]
      by_cases hq : p.1 = k2 <;> simp [hq, ih]

theorem mapGet_mapDelete_ne (m : List (String × Nat)) {k k2 : String}
    (h : k2 ≠ k) : mapGet (mapDelete m k) k2 = mapGet m k2 := by
  induction m with
  | nil => rw [mapDelete]
  | cons p t ih =>
    rw [mapDelete]
    by_cases hp : p.1 = k
    · have h2 : ¬(p.1 = k2) := fun hc => h (hc ▸ hp)
      rw [if_pos hp, mapGet, if_neg h2]
    · rw [if_neg hp]
      simp only [mapGet]
      by_cases hq : p.1 = k2 <;> simp [hq, ih]

theorem mapGet_setAll_notMem (rs : List Registration) :
    ∀ (m : List (String × Nat)) (k : String),
      k ∉ rs.map (fun r => r.name) → mapGet (setAll m rs) k = mapGet m k := by
  induction rs with
  | nil => intro m k _; rfl
  | cons r t ih =>
    intro m k hk
    rw [List.map_cons, List.mem_cons] at hk
    push_neg at hk
    rw [setAll, ih (mapSet m r.name r.bootOutcome.val) k hk.2,
      mapGet_mapSet_ne m r.bootOutcome.val hk.1]

theorem mapGet_setAll_mem (rs : List Registration) :
    ∀ (m : List (String × Nat)) (r : Registration),
      (rs.map (fun r => r.name)).Nodup → r ∈ rs →
      mapGet (setAll m rs) r.name = some r.bootOutcome.val := by
  induction rs with
  | nil => intro m r _ hr; exact absurd hr (List.not_mem_nil r)
  | cons q t ih =>
    intro m r hnd hr
    rw [List.map_cons, List.nodup_cons] at hnd
    rw [List.mem_cons] at hr
    rcases hr with hr | hr
    · subst hr
      rw [setAll, mapGet_setAll_notMem t _ r.name hnd.1, mapGet_mapSet_self]
    · rw [setAll]
      exact ih _ r hnd.2 hr

theorem runStep_boot_ok (st : ProcState) (r : Registration)
    (hb : benign st.eventsHandlers = true) (hr : r.bootOutcome.isOk = true) :
    runStep Mode.boot st r = (bootOkUpd st r, none) := by
  rcases hv : r.bootOutcome with v | e | _ | _ <;> rw [hv] at hr <;>
    simp [RaceOutcome.isOk] at hr
  simp [runStep, emitErr_benign hb, emitTrace, Mode.isShutdown, Mode.isBoot,
    hv, bootOkUpd, RaceOutcome.val]

theorem runStep_boot_fail (st : ProcState) (r : Registration)
    (hb : benign st.eventsHandlers = true) (hr : r.bootOutcome.isOk = false) :
    runStep Mode.boot st r =
      (failUpd Mode.boot st r none r.bootOutcome.raised,
       some r.bootOutcome.raised) := by
  rcases hv : r.bootOutcome with v | e | _ | _ <;> rw [hv] at hr
  · simp [RaceOutcome.isOk] at hr
  all_goals
    simp [runStep, stepCatch, emitErr_benign hb, emitTrace, Mode.isShutdown,
      Mode.isBoot, hv, failUpd, RaceOutcome.raised]

theorem runStep_shutdown_continue (st : ProcState) (r : Registration)
    (hb : benign st.eventsHandlers = true)
    (hc : shutdownContinues r = true) :
    runStep Mode.shutdown st r = (shutdownStepUpd st r, none) := by
  rcases hv : r.shutdownOutcome with v | e | _ | _ <;>
    rw [shutdownContinues, hv] at hc
  · simp [runStep, emitErr_benign hb, emitTrace, Mode.isShutdown, Mode.isBoot,
      hv, shutdownStepUpd, RaceOutcome.isOk, shutdownOkUpd]
  · simp only [Bool.not_eq_true'] at hc
    simp [runStep, stepCatch, emitErr_benign hb, emitTrace, Mode.isShutdown,
      Mode.isBoot, hv, hc, shutdownStepUpd, RaceOutcome.isOk, failUpd,
      RaceOutcome.raised]
  · simp [runStep, stepCatch, emitErr_benign hb, emitTrace, Mode.isShutdown,
      Mode.isBoot, hv, shutdownStepUpd, RaceOutcome.isOk, failUpd,
      RaceOutcome.raised, isGlobalTimeoutInstance]
  · exact absurd hc (by simp)

theorem runStep_shutdown_abort (st : ProcState) (r : Registration)
    (hb : benign st.eventsHandlers = true)
    (hc : shutdownContinues r = false) :
    runStep Mode.shutdown st r =
      (failUpd Mode.shutdown st r (mapGet st.services r.name)
        r.shutdownOutcome.raised,
       some r.shutdownOutcome.raised) := by
  rcases hv : r.shutdownOutcome with v | e | _ | _ <;>
    rw [shutdownContinues, hv] at hc
  · exact absurd hc (by simp)
  · simp only [Bool.not_eq_false'] at hc
    simp [runStep, stepCatch, emitErr_benign hb, emitTrace, Mode.isShutdown,
      Mode.isBoot, hv, hc, failUpd, RaceOutcome.raised]
  · exact absurd hc (by simp)
  · simp [runStep, stepCatch, emitErr_benign hb, emitTrace, Mode.isShutdown,
      Mode.isBoot, hv, failUpd, RaceOutcome.raised, isGlobalTimeoutInstance]

theorem runSteps_append_ok {m : Mode} {xs : List Registration}
    {st st1 : ProcState} (h : runSteps m st xs = (st1, none))
    (ys : List Registration) :
    runSteps m st (xs ++ ys) = runSteps m st1 ys := by
  induction xs generalizing st with
  | nil =>
    rw [runSteps] at h
    injection h with h1 _
    rw [List.nil_append, h1]
  | cons x t ih =>
    rw [List.cons_append, runSteps]
    rw [runSteps] at h
    rcases hx : runStep m st x with ⟨stx, ex⟩
    rw [hx] at h
    cases ex with
    | some e => simp at h
    | none => exact ih h

theorem runSteps_append_abort {m : Mode} {xs : List Registration}
    {st st1 : ProcState} {e : JsError}
    (h : runSteps m st xs = (st1, some e)) (ys : List Registration) :
    runSteps m st (xs ++ ys) = (st1, some e) := by
  induction xs generalizing st with
  | nil =>
    rw [runSteps] at h
    injection h with _ h2
    simp at h2
  | cons x t ih =>
    rw [List.cons_append, runSteps]
    rw [runSteps] at h
    rcases hx : runStep m st x with ⟨stx, ex⟩
    rw [hx] at h
    cases ex with
    | some e2 => exact h
    | none => exact ih h

theorem bootOkUpd_eventsHandlers (st : ProcState) (r : Registration) :
    (bootOkUpd st r).eventsHandlers = st.eventsHandlers := rfl

theorem shutdownStepUpd_eventsHandlers (st : ProcState) (r : Registration) :
    (shutdownStepUpd st r).eventsHandlers = st.eventsHandlers := by
  rw [shutdownStepUpd]; split <;> rfl

theorem runSteps_boot_all_ok (rs : List Registration) :
    ∀ st : ProcState, benign st.eventsHandlers = true →
      (∀ r ∈ rs, r.bootOutcome.isOk = true) →
      runSteps Mode.boot st rs = (rs.foldl bootOkUpd st, none) := by
  induction rs with
  | nil => intro st _ _; rw [runSteps, List.foldl_nil]
  | cons r t ih =>
    intro st hb h
    rw [runSteps, runStep_boot_ok st r hb (h r (List.mem_cons_self r t)),
      List.foldl_cons]
    exact ih (bootOkUpd st r) (by rw [bootOkUpd_eventsHandlers]; exact hb)
      (fun x hx => h x (List.mem_cons_of_mem r hx))

theorem runSteps_shutdown_all_continue (rs : List Registration) :
    ∀ st : ProcState, benign st.eventsHandlers = true →
      (∀ r ∈ rs, shutdownContinues r = true) →
      runSteps Mode.shutdown st rs = (rs.foldl shutdownStepUpd st, none) := by
  induction rs with
  | nil => intro st _ _; rw [runSteps, List.foldl_nil]
  | cons r t ih =>
    intro st hb h
    rw [runSteps,
      runStep_shutdown_continue st r hb (h r (List.mem_cons_self r t)),
      List.foldl_cons]
    exact ih (shutdownStepUpd st r)
      (by rw [shutdownStepUpd_eventsHandlers]; exact hb)
      (fun x hx => h x (List.mem_cons_of_mem r hx))

theorem foldl_bootOkUpd_eventsHandlers (rs : List Registration) :
    ∀ st : ProcState,
      (rs.foldl bootOkUpd st).eventsHandlers = st.eventsHandlers := by
  induction rs with
  | nil => intro st; rfl
  | cons r t ih => intro st; rw [List.foldl_cons, ih]; rfl

theorem foldl_bootOkUpd_aborted (rs : List Registration) :
    ∀ st : ProcState, (rs.foldl bootOkUpd st).aborted = st.aborted := by
  induction rs with
  | nil => intro st; rfl
  | cons r t ih => intro st; rw [List.foldl_cons, ih]; rfl

theorem foldl_bootOkUpd_staged (rs : List Registration) :
    ∀ st : ProcState,
      (rs.foldl bootOkUpd st).serviceRegistrationsStaged =
        st.serviceRegistrationsStaged := by
  induction rs with
  | nil => intro st; rfl
  | cons r t ih => intro st; rw [List.foldl_cons, ih]; rfl

theorem foldl_bootOkUpd_regs (rs : List Registration) :
    ∀ st : ProcState,
      (rs.foldl bootOkUpd st).serviceRegistrations =
        st.serviceRegistrations ++ rs := by
  induction rs with
  | nil => intro st; rw [List.foldl_nil, List.append_nil]
  | cons r t ih =>
    intro st
    rw [List.foldl_cons, ih, bootOkUpd]
    simp

theorem foldl_bootOkUpd_services (rs : List Registration) :
    ∀ st : ProcState,
      (rs.foldl bootOkUpd st).services = setAll st.services rs := by
  induction rs with
  | nil => intro st; rfl
  | cons r t ih => intro st; rw [List.foldl_cons, ih, setAll]; rfl

theorem foldl_bootOkUpd_calls (rs : List Registration) :
    ∀ st : ProcState,
      (rs.foldl bootOkUpd st).calls =
        st.calls ++ rs.map (fun r => (⟨Mode.boot, r.id, r.name, none⟩ : Call)) := by
  induction rs with
  | nil => intro st; rw [List.foldl_nil, List.map_nil, List.append_nil]
  | cons r t ih =>
    intro st
    rw [List.foldl_cons, ih, List.map_cons, bootOkUpd]
    simp

theorem shutdownStepUpd_calls (st : ProcState) (r : Registration) :
    (shutdownStepUpd st r).calls = st.calls ++
      [⟨Mode.shutdown, r.id, r.name, mapGet st.services r.name⟩] := by
  rw [shutdownStepUpd]; split <;> rfl

theorem shutdownStepUpd_aborted (st : ProcState) (r : Registration) :
    (shutdownStepUpd st r).aborted = st.aborted := by
  rw [shutdownStepUpd]; split <;> rfl

theorem shutdownStepUpd_mapGet_ne (st : ProcState) (r : Registration)
    {k : String} (h : k ≠ r.name) :
    mapGet (shutdownStepUpd st r).services k = mapGet st.services k := by
  rw [shutdownStepUpd]
  split
  · exact mapGet_mapDelete_ne st.services h
  · rfl

theorem foldl_shutdownStepUpd_aborted (rs : List Registration) :
    ∀ st : ProcState, (rs.foldl shutdownStepUpd st).aborted = st.aborted := by
  induction rs with
  | nil => intro st; rfl
  | cons r t ih =>
    intro st; rw [List.foldl_cons, ih, shutdownStepUpd_aborted]

theorem foldl_shutdownStepUpd_eventsHandlers (rs : List Registration) :
    ∀ st : ProcState,
      (rs.foldl shutdownStepUpd st).eventsHandlers = st.eventsHandlers := by
  induction rs with
  | nil => intro st; rfl
  | cons r t ih =>
    intro st; rw [List.foldl_cons, ih, shutdownStepUpd_eventsHandlers]

theorem foldl_shutdownStepUpd_calls_nodup (rs : List Registration) :
    ∀ st : ProcState, (rs.map (fun r => r.name)).Nodup →
      (rs.foldl shutdownStepUpd st).calls = st.calls ++
        rs.map (fun r =>
          (⟨Mode.shutdown, r.id, r.name, mapGet st.services r.name⟩ : Call)) := by
  induction rs with
  | nil => intro st _; rw [List.foldl_nil, List.map_nil, List.append_nil]
  | cons r t ih =>
    intro st hnd
    rw [List.map_cons, List.nodup_cons] at hnd
    rw [List.foldl_cons, List.map_cons, ih (shutdownStepUpd st r) hnd.2,
      shutdownStepUpd_calls, List.append_assoc, List.singleton_append]
    congr 1
    congr 1
    refine List.map_congr_left (fun x hx => ?_)
    have hne : x.name ≠ r.name := by
      intro hc
      exact hnd.1 (hc ▸ List.mem_map_of_mem (fun q => q.name) hx)
    rw [shutdownStepUpd_mapGet_ne st r hne]

theorem stepCatch_fst (m : Mode) (st : ProcState) (r : Registration)
    (e : JsError) :
    (stepCatch m st r e).1 =
      emitTrace st (Event.serviceEnded m r.name (some e)) := by
  unfold stepCatch
  rcases h : emitErr st.eventsHandlers (Event.serviceEnded m r.name (some e))
    with _ | e2
  · simp only [h]
    split <;> rfl
  · simp only [h]

theorem passCatch_fst (m : Mode) (st : ProcState) (e : JsError) :
    (passCatch m st e).1 = emitTrace st (Event.ended m (some e)) := by
  unfold passCatch
  rcases h : emitErr st.eventsHandlers (Event.ended m (some e)) with _ | e2 <;>
    simp only [h]

theorem executeShutdown_fst (st : ProcState) :
    (executeShutdown st).1 = (runPass Mode.shutdown st).1 := by
  unfold executeShutdown
  rcases h : runPass Mode.shutdown st with ⟨st1, ex⟩
  cases ex <;> simp

theorem runStep_calls_shape (m : Mode) (st : ProcState) (r : Registration) :
    ∃ X : List Call, (runStep m st r).1.calls = st.calls ++ X ∧
      ∀ c ∈ X, c.mode = m := by
  unfold runStep
  rcases h1 : emitErr st.eventsHandlers (Event.serviceStarted m r.name)
    with _ | e
  · simp only [h1]
    rcases ho : (if m.isShutdown then r.shutdownOutcome else r.bootOutcome)
      with v | e | _ | _ <;> simp only [ho]
    · rcases h2 : emitErr st.eventsHandlers (Event.serviceEnded m r.name none)
        with _ | e2
      · refine ⟨[⟨m, r.id, r.name,
          if m.isShutdown then mapGet st.services r.name else none⟩],
          ?_, ?_⟩
        · cases m <;> simp [h2, emitTrace, Mode.isShutdown]
        · intro c hc
          rw [List.mem_singleton] at hc
          rw [hc]
      · refine ⟨[⟨m, r.id, r.name,
          if m.isShutdown then mapGet st.services r.name else none⟩],
          ?_, ?_⟩
        · cases m <;> simp [h2, stepCatch_fst, emitTrace, Mode.isShutdown]
        · intro c hc
          rw [List.mem_singleton] at hc
          rw [hc]
    · refine ⟨[⟨m, r.id, r.name,
        if m.isShutdown then mapGet st.services r.name else none⟩], ?_, ?_⟩
      · cases m <;> simp [stepCatch_fst, emitTrace, Mode.isShutdown]
      · intro c hc
        rw [List.mem_singleton] at hc
        rw [hc]
    · refine ⟨[⟨m, r.id, r.name,
        if m.isShutdown then mapGet st.services r.name else none⟩], ?_, ?_⟩
      · cases m <;> simp [stepCatch_fst, emitTrace, Mode.isShutdown]
      · intro c hc
        rw [List.mem_singleton] at hc
        rw [hc]
    · refine ⟨[⟨m, r.id, r.name,
        if m.isShutdown then mapGet st.services r.name else none⟩], ?_, ?_⟩
      · cases m <;> simp [stepCatch_fst, emitTrace, Mode.isShutdown]
      · intro c hc
        rw [List.mem_singleton] at hc
        rw [hc]
  · exact ⟨[], by simp only [h1, emitTrace, List.append_nil], by simp⟩

theorem runSteps_calls_shape (m : Mode) (rs : List Registration) :
    ∀ st : ProcState, ∃ X : List Call,
      (runSteps m st rs).1.calls = st.calls ++ X ∧ ∀ c ∈ X, c.mode = m := by
  induction rs with
  | nil =>
    intro st
    exact ⟨[], by rw [runSteps, List.append_nil], by simp⟩
  | cons r t ih =>
    intro st
    rw [runSteps]
    rcases hx : runStep m st r with ⟨stx, ex⟩
    obtain ⟨X0, hX0, hX0m⟩ := runStep_calls_shape m st r
    rw [hx] at hX0
    cases ex with
    | some e => exact ⟨X0, hX0, hX0m⟩
    | none =>
      obtain ⟨X1, hX1, hX1m⟩ := ih stx
      refine ⟨X0 ++ X1, ?_, ?_⟩
      · rw [hX1, hX0, List.append_assoc]
      · intro c hc
        rcases List.mem_append.mp hc with h | h
        · exact hX0m c h
        · exact hX1m c h

theorem runPass_calls_shape (m : Mode) (st0 : ProcState) :
    ∃ X : List Call, (runPass m st0).1.calls = st0.calls ++ X ∧
      ∀ c ∈ X, c.mode = m := by
  unfold runPass
  rcases h1 : emitErr (if m.isShutdown then { st0 with aborted := true }
      else st0).eventsHandlers (Event.started m) with _ | e
  · simp only [h1]
    rcases hrs : runSteps m (emitTrace (if m.isShutdown then
        { st0 with aborted := true } else st0) (Event.started m))
        (if m.isShutdown then st0.serviceRegistrations.reverse
         else st0.serviceRegistrationsStaged) with ⟨st2, ex⟩
    obtain ⟨X, hX, hXm⟩ := runSteps_calls_shape m
      (if m.isShutdown then st0.serviceRegistrations.reverse
       else st0.serviceRegistrationsStaged)
      (emitTrace (if m.isShutdown then { st0 with aborted := true } else st0)
        (Event.started m))
    rw [hrs] at hX
    have hbase : (emitTrace (if m.isShutdown then
        { st0 with aborted := true } else st0) (Event.started m)).calls =
        st0.calls := by
      rcases m with _ | _ <;> rfl
    rw [hbase] at hX
    cases ex with
    | some e => exact ⟨X, by rw [passCatch_fst]; exact hX, hXm⟩
    | none =>
      rcases h2 : emitErr st2.eventsHandlers (Event.ended m none) with _ | e
      · exact ⟨X, by simp only [h2, emitTrace]; exact hX, hXm⟩
      · exact ⟨X, by simp only [h2, passCatch_fst, emitTrace]; exact hX, hXm⟩
  · refine ⟨[], ?_, by simp⟩
    simp only [h1, passCatch_fst, emitTrace, List.append_nil]
    rcases m with _ | _ <;> rfl

theorem runPass_shutdown_def (st0 : ProcState) :
    runPass Mode.shutdown st0 =
      match emitErr st0.eventsHandlers (Event.started Mode.shutdown) with
      | some e =>
        passCatch Mode.shutdown
          (emitTrace { st0 with aborted := true }
            (Event.started Mode.shutdown)) e
      | none =>
        match runSteps Mode.shutdown
            (emitTrace { st0 with aborted := true }
              (Event.started Mode.shutdown))
            st0.serviceRegistrations.reverse with
        | (st2, some e) => passCatch Mode.shutdown st2 e
        | (st2, none) =>
          match emitErr st2.eventsHandlers (Event.ended Mode.shutdown none) with
          | some e =>
            passCatch Mode.shutdown
              (emitTrace { st2 with booted := false }
                (Event.ended Mode.shutdown none)) e
          | none =>
            (emitTrace { st2 with booted := false }
              (Event.ended Mode.shutdown none), PassExit.completed) := rfl

theorem runPass_boot_def (st0 : ProcState) :
    runPass Mode.boot st0 =
      match emitErr st0.eventsHandlers (Event.started Mode.boot) with
      | some e =>
        passCatch Mode.boot (emitTrace st0 (Event.started Mode.boot)) e
      | none =>
        match runSteps Mode.boot (emitTrace st0 (Event.started Mode.boot))
            st0.serviceRegistrationsStaged with
        | (st2, some e) => passCatch Mode.boot st2 e
        | (st2, none) =>
          match emitErr st2.eventsHandlers (Event.ended Mode.boot none) with
          | some e =>
            passCatch Mode.boot
              (emitTrace { st2 with booted := true }
                (Event.ended Mode.boot none)) e
          | none =>
            (emitTrace { st2 with booted := true }
              (Event.ended Mode.boot none), PassExit.completed) := rfl

theorem passCatch_benign (m : Mode) (st : ProcState) (e : JsError)
    (hb : benign st.eventsHandlers = true) :
    passCatch m st e =
      (emitTrace st (Event.ended m (some e)), PassExit.caught) := by
  unfold passCatch
  rw [emitErr_benign hb]

theorem runPass_shutdown_all_continue (st : ProcState)
    (hb : benign st.eventsHandlers = true)
    (hall : ∀ r ∈ st.serviceRegistrations.reverse,
      shutdownContinues r = true) :
    runPass Mode.shutdown st = (shutdownPassEnd st, PassExit.completed) := by
  have h2 : emitErr (st.serviceRegistrations.reverse.foldl shutdownStepUpd
      (emitTrace { st with aborted := true }
        (Event.started Mode.shutdown))).eventsHandlers
      (Event.ended Mode.shutdown none) = none := by
    rw [foldl_shutdownStepUpd_eventsHandlers]
    exact emitErr_benign hb _
  rw [runPass_shutdown_def, emitErr_benign hb,
    runSteps_shutdown_all_continue st.serviceRegistrations.reverse
      (emitTrace { st with aborted := true } (Event.started Mode.shutdown))
      hb hall]
  dsimp only
  rw [h2]
  rfl

theorem runPass_boot_split (st : ProcState) (A B : List Registration)
    (rf : Registration) (hb : benign st.eventsHandlers = true)
    (hstaged : st.serviceRegistrationsStaged = A ++ rf :: B)
    (hA : ∀ a ∈ A, a.bootOutcome.isOk = true)
    (hf : rf.bootOutcome.isOk = false) :
    runPass Mode.boot st =
      (emitTrace
        (failUpd Mode.boot
          (A.foldl bootOkUpd (emitTrace st (Event.started Mode.boot)))
          rf none rf.bootOutcome.raised)
        (Event.ended Mode.boot (some rf.bootOutcome.raised)),
       PassExit.caught) := by
  have hbA : benign (A.foldl bootOkUpd
      (emitTrace st (Event.started Mode.boot))).eventsHandlers = true := by
    rw [foldl_bootOkUpd_eventsHandlers]
    exact hb
  have hsA := runSteps_boot_all_ok A
    (emitTrace st (Event.started Mode.boot)) hb hA
  have hstep := runStep_boot_fail
    (A.foldl bootOkUpd (emitTrace st (Event.started Mode.boot))) rf hbA hf
  rw [runPass_boot_def, emitErr_benign hb, hstaged,
    runSteps_append_ok hsA (rf :: B), runSteps, hstep]
  dsimp only
  rw [passCatch_benign Mode.boot _ _ (by exact hbA)]

theorem shutdownStepUpd_trace_err (st : ProcState) (r : Registration)
    (e : JsError) (h : r.shutdownOutcome = RaceOutcome.err e) :
    (shutdownStepUpd st r).trace = st.trace ++
      [Event.serviceStarted Mode.shutdown r.name,
       Event.serviceEnded Mode.shutdown r.name (some e)] := by
  rw [shutdownStepUpd, h]
  simp [RaceOutcome.isOk, RaceOutcome.raised, failUpd]

theorem foldl_shutdownStepUpd_trace_shape (rs : List Registration) :
    ∀ st : ProcState, ∃ t,
      (rs.foldl shutdownStepUpd st).trace = st.trace ++ t := by
  induction rs with
  | nil => intro st; exact ⟨[], (List.append_nil _).symm⟩
  | cons r q ih =>
    intro st
    obtain ⟨t1, ht1⟩ := ih (shutdownStepUpd st r)
    have h2 : ∃ t0, (shutdownStepUpd st r).trace = st.trace ++ t0 := by
      rw [shutdownStepUpd]
      split
      · exact ⟨_, rfl⟩
      · exact ⟨_, rfl⟩
    obtain ⟨t0, ht0⟩ := h2
    exact ⟨t0 ++ t1,
      by rw [List.foldl_cons, ht1, ht0, List.append_assoc]⟩

theorem shutdownCallIds_append (a b : List Call) :
    shutdownCallIds (a ++ b) =
      shutdownCallIds a ++ shutdownCallIds b := by
  rw [shutdownCallIds, shutdownCallIds, shutdownCallIds, List.filter_append,
    List.map_append]

theorem foldl_shutdownStepUpd_callIds (rs : List Registration) :
    ∀ st : ProcState,
      shutdownCallIds (rs.foldl shutdownStepUpd st).calls =
        shutdownCallIds st.calls ++ rs.map (fun r => r.id) := by
  induction rs with
  | nil => intro st; rw [List.foldl_nil, List.map_nil, List.append_nil]
  | cons r q ih =>
    intro st
    rw [List.foldl_cons, ih, shutdownStepUpd_calls, shutdownCallIds_append,
      List.map_cons]
    simp [shutdownCallIds, Mode.isShutdown]

theorem runSteps_boot_take (rs : List Registration) :
    ∀ st : ProcState, benign st.eventsHandlers = true →
      ∃ k, k ≤ rs.length ∧
        (runSteps Mode.boot st rs).1.calls = st.calls ++
          (rs.take k).map
            (fun r => (⟨Mode.boot, r.id, r.name, none⟩ : Call)) ∧
        ((∀ r ∈ rs, r.bootOutcome.isOk = true) → k = rs.length) := by
  induction rs with
  | nil =>
    intro st hb
    exact ⟨0, Nat.le_refl 0, by simp [runSteps], fun _ => rfl⟩
  | cons r t ih =>
    intro st hb
    cases hr : r.bootOutcome.isOk
    case true =>
      rw [runSteps, runStep_boot_ok st r hb hr]
      obtain ⟨k, hk, hcalls, hall⟩ := ih (bootOkUpd st r)
        (by rw [bootOkUpd_eventsHandlers]; exact hb)
      refine ⟨k + 1, Nat.succ_le_succ hk, ?_, ?_⟩
      · rw [List.take_succ_cons, List.map_cons, hcalls, bootOkUpd]
        simp
      · intro h
        rw [List.length_cons,
          hall (fun x hx => h x (List.mem_cons_of_mem r hx))]
    case false =>
      rw [runSteps, runStep_boot_fail st r hb hr]
      refine ⟨1, Nat.succ_le_succ (Nat.zero_le _), ?_, ?_⟩
      · rw [List.take_succ_cons, List.take_zero, List.map_cons, List.map_nil]
        simp [failUpd]
      · intro h
        exact absurd (h r (List.mem_cons_self r t)) (by rw [hr]; simp)

theorem runPass_boot_calls (st : ProcState)
    (hb : benign st.eventsHandlers = true) :
    ∃ k, (runPass Mode.boot st).1.calls = st.calls ++
        (st.serviceRegistrationsStaged.take k).map
          (fun r => (⟨Mode.boot, r.id, r.name, none⟩ : Call)) ∧
      ((∀ r ∈ st.serviceRegistrationsStaged, r.bootOutcome.isOk = true) →
        k = st.serviceRegistrationsStaged.length) := by
  obtain ⟨k, _, hcalls, hall⟩ := runSteps_boot_take
    st.serviceRegistrationsStaged (emitTrace st (Event.started Mode.boot))
    (by exact hb)
  rw [runPass_boot_def, emitErr_benign hb]
  rcases hrs : runSteps Mode.boot (emitTrace st (Event.started Mode.boot))
      st.serviceRegistrationsStaged with ⟨st2, ex⟩
  rw [hrs] at hcalls
  refine ⟨k, ?_, hall⟩
  cases ex with
  | some e =>
    dsimp only
    rw [passCatch_fst]
    exact hcalls
  | none =>
    dsimp only
    rcases h2 : emitErr st2.eventsHandlers (Event.ended Mode.boot none)
      with _ | e
    · dsimp only
      exact hcalls
    · dsimp only
      rw [passCatch_fst]
      exact hcalls

theorem executeBoot_calls (st : ProcState)
    (hb : benign st.eventsHandlers = true) :
    ∃ k Y, (executeBoot st).1.calls = (st.calls ++
        (st.serviceRegistrationsStaged.take k).map
          (fun r => (⟨Mode.boot, r.id, r.name, none⟩ : Call))) ++ Y ∧
      (∀ c ∈ Y, c.mode = Mode.shutdown) ∧
      ((∀ r ∈ st.serviceRegistrationsStaged, r.bootOutcome.isOk = true) →
        k = st.serviceRegistrationsStaged.length) := by
  obtain ⟨k, hcalls, hall⟩ := runPass_boot_calls st hb
  unfold executeBoot
  rcases hp : runPass Mode.boot st with ⟨st1, ex⟩
  rw [hp] at hcalls
  cases ex with
  | completed => exact ⟨k, [], by rw [List.append_nil]; exact hcalls, by simp, hall⟩
  | rejected e => exact ⟨k, [], by rw [List.append_nil]; exact hcalls, by simp, hall⟩
  | caught =>
    obtain ⟨Y, hY, hYm⟩ := runPass_calls_shape Mode.shutdown st1
    refine ⟨k, Y, ?_, hYm, hall⟩
    rw [executeShutdown_fst, hY, hcalls]

theorem runStep_trace_shape (m : Mode) (st : ProcState) (r : Registration) :
    ∃ t, (runStep m st r).1.trace = st.trace ++ t := by
  unfold runStep
  rcases h1 : emitErr st.eventsHandlers (Event.serviceStarted m r.name)
    with _ | e
  · simp only [h1]
    rcases ho : (if m.isShutdown then r.shutdownOutcome else r.bootOutcome)
      with v | e | _ | _ <;> simp only [ho]
    · rcases h2 : emitErr st.eventsHandlers (Event.serviceEnded m r.name none)
        with _ | e2
      · refine ⟨[Event.serviceStarted m r.name,
          Event.serviceEnded m r.name none], ?_⟩
        cases m <;> simp [h2, emitTrace, Mode.isShutdown]
      · refine ⟨[Event.serviceStarted m r.name,
          Event.serviceEnded m r.name none,
          Event.serviceEnded m r.name (some e2)], ?_⟩
        cases m <;> simp [h2, stepCatch_fst, emitTrace, Mode.isShutdown]
    · refine ⟨[Event.serviceStarted m r.name,
        Event.serviceEnded m r.name (some e)], ?_⟩
      cases m <;> simp [stepCatch_fst, emitTrace, Mode.isShutdown]
    · refine ⟨[Event.serviceStarted m r.name,
        Event.serviceEnded m r.name
          (some (JsError.plain "Service boot timeout exceeded"))], ?_⟩
      cases m <;> simp [stepCatch_fst, emitTrace, Mode.isShutdown]
    · refine ⟨[Event.serviceStarted m r.name,
        Event.serviceEnded m r.name
          (some (JsError.globalTimeoutExceededError
            "Global timeout exceeded"))], ?_⟩
      cases m <;> simp [stepCatch_fst, emitTrace, Mode.isShutdown]
  · exact ⟨[Event.serviceStarted m r.name],
      by simp only [h1, emitTrace]⟩

theorem runSteps_trace_shape (m : Mode) (rs : List Registration) :
    ∀ st : ProcState, ∃ t,
      (runSteps m st rs).1.trace = st.trace ++ t := by
  induction rs with
  | nil =>
    intro st
    exact ⟨[], by rw [runSteps, List.append_nil]⟩
  | cons r q ih =>
    intro st
    rw [runSteps]
    rcases hx : runStep m st r with ⟨stx, ex⟩
    obtain ⟨t0, ht0⟩ := runStep_trace_shape m st r
    rw [hx] at ht0
    cases ex with
    | some e => exact ⟨t0, ht0⟩
    | none =>
      obtain ⟨t1, ht1⟩ := ih stx
      exact ⟨t0 ++ t1, by rw [ht1, ht0, List.append_assoc]⟩

/-- C1: if some staged registration's boot step fails (its callable throws,
or a timer wins the race) after a prefix `A` of registrations booted
successfully, then `boot` leaves `booted = false`, sets the cancellation
signal, automatically runs the shutdown pass, and that pass invokes the
shutdown callables of exactly the successfully booted services, in the
exact reverse of their boot-completion order, passing each the result its
own boot returned; the promise returned by `boot` resolves (does not
reject) and only after the shutdown pass has emitted `shutdownEnded`.
The hypotheses are the spec's own side conditions: service names are
unique, handlers do not throw, and the automatic shutdown pass itself is
not cut short by the global shutdown timeout. -/
theorem boot_failure_triggers_auto_shutdown
    (st0 : ProcState) (A B : List Registration) (rf : Registration)
    (hb : benign st0.eventsHandlers = true)
    (hstaged : st0.serviceRegistrationsStaged = A ++ rf :: B)
    (hregs : st0.serviceRegistrations = [])
    (hsvc : st0.services = [])
    (hbootP : st0.bootProcess = false)
    (hcalls : st0.calls = [])
    (hA : ∀ a ∈ A, a.bootOutcome.isOk = true)
    (hf : rf.bootOutcome.isOk = false)
    (hnames : (A.map (fun a => a.name)).Nodup)
    (hAsd : ∀ a ∈ A, shutdownContinues a = true) :
    (boot st0).2 = none ∧
    (boot st0).1.booted = false ∧
    (boot st0).1.aborted = true ∧
    (boot st0).1.calls =
      (A.map (fun a => (⟨Mode.boot, a.id, a.name, none⟩ : Call)) ++
        [⟨Mode.boot, rf.id, rf.name, none⟩]) ++
      A.reverse.map (fun a =>
        (⟨Mode.shutdown, a.id, a.name, some a.bootOutcome.val⟩ : Call)) ∧
    ∃ t, (boot st0).1.trace = t ++ [Event.ended Mode.shutdown none] := by
  have hboot : boot st0 =
      executeBoot { st0 with bootProcess := true } := by
    unfold boot
    rw [if_neg (by rw [hbootP]; exact Bool.false_ne_true)]
    rfl
  have hsplit := runPass_boot_split { st0 with bootProcess := true } A B rf
    (by exact hb) (by exact hstaged) hA hf
  have hexec : boot st0 = executeShutdown
      (emitTrace
        (failUpd Mode.boot
          (A.foldl bootOkUpd (emitTrace { st0 with bootProcess := true }
            (Event.started Mode.boot)))
          rf none rf.bootOutcome.raised)
        (Event.ended Mode.boot (some rf.bootOutcome.raised))) := by
    rw [hboot]
    unfold executeBoot
    rw [hsplit]
  set stMid := emitTrace
      (failUpd Mode.boot
        (A.foldl bootOkUpd (emitTrace { st0 with bootProcess := true }
          (Event.started Mode.boot)))
        rf none rf.bootOutcome.raised)
      (Event.ended Mode.boot (some rf.bootOutcome.raised)) with hstMid
  have hmidregs : stMid.serviceRegistrations = A := by
    show (A.foldl bootOkUpd (emitTrace { st0 with bootProcess := true }
      (Event.started Mode.boot))).serviceRegistrations = A
    rw [foldl_bootOkUpd_regs]
    show st0.serviceRegistrations ++ A = A
    rw [hregs, List.nil_append]
  have hmidb : benign stMid.eventsHandlers = true := by
    show benign (A.foldl bootOkUpd (emitTrace { st0 with bootProcess := true }
      (Event.started Mode.boot))).eventsHandlers = true
    rw [foldl_bootOkUpd_eventsHandlers]
    exact hb
  have hmidcalls : stMid.calls =
      A.map (fun a => (⟨Mode.boot, a.id, a.name, none⟩ : Call)) ++
        [⟨Mode.boot, rf.id, rf.name, none⟩] := by
    show (A.foldl bootOkUpd (emitTrace { st0 with bootProcess := true }
      (Event.started Mode.boot))).calls ++
        [⟨Mode.boot, rf.id, rf.name, none⟩] = _
    rw [foldl_bootOkUpd_calls]
    show st0.calls ++ _ ++ _ = _
    rw [hcalls, List.nil_append]
  have hmidsvc : stMid.services = setAll [] A := by
    show (A.foldl bootOkUpd (emitTrace { st0 with bootProcess := true }
      (Event.started Mode.boot))).services = setAll [] A
    rw [foldl_bootOkUpd_services]
    show setAll st0.services A = setAll [] A
    rw [hsvc]
  have hall : ∀ r ∈ stMid.serviceRegistrations.reverse,
      shutdownContinues r = true := by
    rw [hmidregs]
    intro r hr
    exact hAsd r (List.mem_reverse.mp hr)
  have hpass := runPass_shutdown_all_continue stMid hmidb hall
  have hfinal : boot st0 = (shutdownPassEnd stMid, none) := by
    rw [hexec]
    unfold executeShutdown
    rw [hpass]
  refine ⟨by rw [hfinal], by rw [hfinal]; rfl, ?_, ?_, ?_⟩
  · rw [hfinal]
    show (stMid.serviceRegistrations.reverse.foldl shutdownStepUpd
      (emitTrace { stMid with aborted := true }
        (Event.started Mode.shutdown))).aborted = true
    rw [foldl_shutdownStepUpd_aborted]
    rfl
  · rw [hfinal]
    show (stMid.serviceRegistrations.reverse.foldl shutdownStepUpd
      (emitTrace { stMid with aborted := true }
        (Event.started Mode.shutdown))).calls = _
    have hndrev : (stMid.serviceRegistrations.reverse.map
        (fun r => r.name)).Nodup := by
      rw [hmidregs, List.map_reverse]
      exact List.nodup_reverse.mpr hnames
    rw [foldl_shutdownStepUpd_calls_nodup
      stMid.serviceRegistrations.reverse _ hndrev]
    show stMid.calls ++ _ = _
    rw [hmidcalls, hmidregs]
    congr 1
    refine List.map_congr_left (fun a ha => ?_)
    have hmem : a ∈ A := List.mem_reverse.mp ha
    have harg : mapGet stMid.services a.name = some a.bootOutcome.val := by
      rw [hmidsvc]
      exact mapGet_setAll_mem A [] a hnames hmem
    show (⟨Mode.shutdown, a.id, a.name, mapGet stMid.services a.name⟩ : Call)
      = _
    rw [harg]
  · rw [hfinal]
    exact ⟨_, rfl⟩

/-- C4: during a shutdown pass every step up to `r` lets the loop continue.
If `r` also continues (in particular when it fails from a cause other than
the global timeout) the remaining services `Q` still get their shutdown
callables invoked, and a non-global failure of `r` is recorded on the
`shutdownServiceEnded` event; if `r` fails because the global timer won the
race, the loop stops at once and no callable of any service in `Q` is
invoked. -/
theorem shutdown_failure_policy
    (st : ProcState) (P Q : List Registration) (r : Registration)
    (hb : benign st.eventsHandlers = true)
    (hsplit : st.serviceRegistrations.reverse = P ++ r :: Q)
    (hP : ∀ p ∈ P, shutdownContinues p = true) :
    ((∀ q ∈ Q, shutdownContinues q = true) → shutdownContinues r = true →
      shutdownCallIds (runPass Mode.shutdown st).1.calls =
        shutdownCallIds st.calls ++ (P ++ r :: Q).map (fun x => x.id)) ∧
    (∀ e, r.shutdownOutcome = RaceOutcome.err e →
      isGlobalTimeoutInstance e = false →
      Event.serviceEnded Mode.shutdown r.name (some e) ∈
        (runPass Mode.shutdown st).1.trace) ∧
    (r.shutdownOutcome = RaceOutcome.globalTimedOut →
      shutdownCallIds (runPass Mode.shutdown st).1.calls =
        shutdownCallIds st.calls ++ (P ++ [r]).map (fun x => x.id) ∧
      Event.serviceEnded Mode.shutdown r.name
        (some (JsError.globalTimeoutExceededError
          "Global timeout exceeded")) ∈
        (runPass Mode.shutdown st).1.trace) := by
  refine ⟨?_, ?_, ?_⟩
  · intro hQ hr
    have hall : ∀ x ∈ st.serviceRegistrations.reverse,
        shutdownContinues x = true := by
      rw [hsplit]
      intro x hx
      rcases List.mem_append.mp hx with h | h
      · exact hP x h
      · rcases List.mem_cons.mp h with h | h
        · rw [h]
          exact hr
        · exact hQ x h
    rw [runPass_shutdown_all_continue st hb hall]
    show shutdownCallIds (st.serviceRegistrations.reverse.foldl
      shutdownStepUpd (emitTrace { st with aborted := true }
        (Event.started Mode.shutdown))).calls = _
    rw [foldl_shutdownStepUpd_callIds]
    show shutdownCallIds st.calls ++ _ = _
    rw [hsplit]
  · intro e he hglob
    have hcont : shutdownContinues r = true := by
      simp [shutdownContinues, he, hglob]
    have hstepsP := runSteps_shutdown_all_continue P
      (emitTrace { st with aborted := true } (Event.started Mode.shutdown))
      hb hP
    have hbP : benign (P.foldl shutdownStepUpd
        (emitTrace { st with aborted := true }
          (Event.started Mode.shutdown))).eventsHandlers = true := by
      rw [foldl_shutdownStepUpd_eventsHandlers]
      exact hb
    have hstepr := runStep_shutdown_continue
      (P.foldl shutdownStepUpd (emitTrace { st with aborted := true }
        (Event.started Mode.shutdown))) r hbP hcont
    have hsteps : runSteps Mode.shutdown
        (emitTrace { st with aborted := true }
          (Event.started Mode.shutdown))
        st.serviceRegistrations.reverse =
        runSteps Mode.shutdown
          (shutdownStepUpd (P.foldl shutdownStepUpd
            (emitTrace { st with aborted := true }
              (Event.started Mode.shutdown))) r) Q := by
      rw [hsplit, runSteps_append_ok hstepsP (r :: Q), runSteps, hstepr]
    have hev : Event.serviceEnded Mode.shutdown r.name (some e) ∈
        (shutdownStepUpd (P.foldl shutdownStepUpd
          (emitTrace { st with aborted := true }
            (Event.started Mode.shutdown))) r).trace := by
      rw [shutdownStepUpd_trace_err _ r e he]
      simp
    obtain ⟨tQ, htQ⟩ := runSteps_trace_shape Mode.shutdown Q
      (shutdownStepUpd (P.foldl shutdownStepUpd
        (emitTrace { st with aborted := true }
          (Event.started Mode.shutdown))) r)
    rw [runPass_shutdown_def, emitErr_benign hb]
    dsimp only
    rcases hq : runSteps Mode.shutdown
        (emitTrace { st with aborted := true }
          (Event.started Mode.shutdown))
        st.serviceRegistrations.reverse with ⟨st2, ex⟩
    have h2 : Event.serviceEnded Mode.shutdown r.name (some e) ∈
        st2.trace := by
      have hst2 : st2 = (runSteps Mode.shutdown
          (shutdownStepUpd (P.foldl shutdownStepUpd
            (emitTrace { st with aborted := true }
              (Event.started Mode.shutdown))) r) Q).1 := by
        rw [← hsteps, hq]
      rw [hst2, htQ]
      exact List.mem_append.mpr (Or.inl hev)
    cases ex with
    | some e2 =>
      dsimp only
      rw [passCatch_fst]
      simp [emitTrace, h2]
    | none =>
      dsimp only
      rcases h3 : emitErr st2.eventsHandlers (Event.ended Mode.shutdown none)
        with _ | e3
      · dsimp only
        simp [emitTrace, h2]
      · dsimp only
        rw [passCatch_fst]
        simp [emitTrace, h2]
  · intro hgl
    have habort : shutdownContinues r = false := by
      simp [shutdownContinues, hgl]
    have hraised : r.shutdownOutcome.raised =
        JsError.globalTimeoutExceededError "Global timeout exceeded" := by
      rw [hgl]
      rfl
    have hstepsP := runSteps_shutdown_all_continue P
      (emitTrace { st with aborted := true } (Event.started Mode.shutdown))
      hb hP
    have hbP : benign (P.foldl shutdownStepUpd
        (emitTrace { st with aborted := true }
          (Event.started Mode.shutdown))).eventsHandlers = true := by
      rw [foldl_shutdownStepUpd_eventsHandlers]
      exact hb
    have hstepr := runStep_shutdown_abort
      (P.foldl shutdownStepUpd (emitTrace { st with aborted := true }
        (Event.started Mode.shutdown))) r hbP habort
    have hsteps : runSteps Mode.shutdown
        (emitTrace { st with aborted := true }
          (Event.started Mode.shutdown))
        st.serviceRegistrations.reverse =
        (failUpd Mode.shutdown
          (P.foldl shutdownStepUpd (emitTrace { st with aborted := true }
            (Event.started Mode.shutdown))) r
          (mapGet (P.foldl shutdownStepUpd
            (emitTrace { st with aborted := true }
              (Event.started Mode.shutdown))).services r.name)
          r.shutdownOutcome.raised,
         some r.shutdownOutcome.raised) := by
      rw [hsplit, runSteps_append_ok hstepsP (r :: Q), runSteps, hstepr]
    rw [runPass_shutdown_def, emitErr_benign hb]
    dsimp only
    rw [hsteps]
    dsimp only
    rw [passCatch_fst]
    constructor
    · show shutdownCallIds ((P.foldl shutdownStepUpd
        (emitTrace { st with aborted := true }
          (Event.started Mode.shutdown))).calls ++
        [⟨Mode.shutdown, r.id, r.name,
          mapGet (P.foldl shutdownStepUpd
            (emitTrace { st with aborted := true }
              (Event.started Mode.shutdown))).services r.name⟩]) = _
      rw [shutdownCallIds_append, foldl_shutdownStepUpd_callIds,
        List.map_append]
      show shutdownCallIds st.calls ++ _ ++ _ = _
      rw [List.append_assoc]
      congr 1
    · rw [hraised]
      simp [emitTrace, failUpd]

/-- C3 as amended: with handlers that do not throw, a boot pass invokes the
boot callables of an initial segment of the staged registrations, in
registration order, each exactly once, passing the orchestrator (recorded
as a boot-mode call); when every boot step succeeds the segment is the
whole staged list.  Invocations are strictly sequential: the call list
order is the processing order, and no later callable starts before the
earlier step settled. -/
theorem boot_calls_ordered_initial_segment
    (st0 : ProcState)
    (hb : benign st0.eventsHandlers = true)
    (hbootP : st0.bootProcess = false)
    (hcalls : st0.calls = []) :
    (∃ k, ((boot st0).1.calls.filter (fun c => c.mode.isBoot)) =
      (st0.serviceRegistrationsStaged.take k).map
        (fun r => (⟨Mode.boot, r.id, r.name, none⟩ : Call))) ∧
    ((∀ r ∈ st0.serviceRegistrationsStaged, r.bootOutcome.isOk = true) →
      ((boot st0).1.calls.filter (fun c => c.mode.isBoot)) =
        st0.serviceRegistrationsStaged.map
          (fun r => (⟨Mode.boot, r.id, r.name, none⟩ : Call))) := by
  have hboot : boot st0 =
      executeBoot { st0 with bootProcess := true } := by
    unfold boot
    rw [if_neg (by rw [hbootP]; exact Bool.false_ne_true)]
    rfl
  obtain ⟨k, Y, hcallsEq, hYm, hall⟩ :=
    executeBoot_calls { st0 with bootProcess := true } (by exact hb)
  dsimp only at hcallsEq hall
  have hfilterMap : ∀ kk,
      (((st0.serviceRegistrationsStaged.take kk).map
        (fun r => (⟨Mode.boot, r.id, r.name, none⟩ : Call))).filter
          (fun c => c.mode.isBoot)) =
      (st0.serviceRegistrationsStaged.take kk).map
        (fun r => (⟨Mode.boot, r.id, r.name, none⟩ : Call)) := by
    intro kk
    refine List.filter_eq_self.mpr (fun c hc => ?_)
    obtain ⟨x, _, hx⟩ := List.mem_map.mp hc
    rw [← hx]
    rfl
  have hYfilter : Y.filter (fun c => c.mode.isBoot) = [] := by
    refine List.filter_eq_nil_iff.mpr (fun c hc => ?_)
    rw [hYm c hc]
    simp [Mode.isBoot]
  constructor
  · refine ⟨k, ?_⟩
    rw [hboot, hcallsEq, hcalls, List.nil_append, List.filter_append,
      hYfilter, List.append_nil, hfilterMap]
  · intro hok
    rw [hboot, hcallsEq, hcalls, List.nil_append, List.filter_append,
      hYfilter, List.append_nil, hfilterMap, hall hok, List.take_length]

theorem boot_abort_skips_later_boot_calls :
    exC3c.serviceRegistrationsStaged.length = 2 ∧
    ((boot exC3c).1.calls.filter
      (fun c => c.mode.isBoot)).map (fun c => c.id) = [0] := by
  decide

theorem boot_calls_ordered_initial_segment_witness :
    (benign exC3w.eventsHandlers = true ∧ exC3w.bootProcess = false ∧
      exC3w.calls = []) ∧
    ((boot exC3w).1.calls.filter (fun c => c.mode.isBoot)) =
      exC3w.serviceRegistrationsStaged.map
        (fun r => (⟨Mode.boot, r.id, r.name, none⟩ : Call)) := by
  refine ⟨⟨by decide, by decide, by decide⟩, ?_⟩
  exact (boot_calls_ordered_initial_segment exC3w (by decide) (by decide)
    (by decide)).2 (by decide)

theorem boot_failure_triggers_auto_shutdown_witness :
    (benign exC1w.eventsHandlers = true ∧
      exC1w.serviceRegistrationsStaged =
        [⟨0, "f", 5000, RaceOutcome.ok 1, RaceOutcome.ok 0⟩] ++
          (⟨1, "b", 5000, RaceOutcome.err (JsError.thrown 5),
            RaceOutcome.ok 0⟩ : Registration) :: []) ∧
    ((boot exC1w).2 = none ∧
      (boot exC1w).1.booted = false ∧
      (boot exC1w).1.aborted = true ∧
      (boot exC1w).1.calls =
        [⟨Mode.boot, 0, "f", none⟩, ⟨Mode.boot, 1, "b", none⟩,
         ⟨Mode.shutdown, 0, "f", some 1⟩] ∧
      ∃ t, (boot exC1w).1.trace =
        t ++ [Event.ended Mode.shutdown none]) := by
  refine ⟨⟨by decide, by decide⟩, ?_⟩
  exact boot_failure_triggers_auto_shutdown exC1w
    [⟨0, "f", 5000, RaceOutcome.ok 1, RaceOutcome.ok 0⟩] []
    ⟨1, "b", 5000, RaceOutcome.err (JsError.thrown 5), RaceOutcome.ok 0⟩
    (by decide) (by decide) (by decide) (by decide) (by decide) (by decide)
    (by decide) (by decide) (by decide) (by decide)

theorem shutdown_failure_policy_witness :
    ((∀ p ∈ ([] : List Registration), shutdownContinues p = true) ∧
      benign exC4a.eventsHandlers = true) ∧
    shutdownCallIds (runPass Mode.shutdown exC4a).1.calls = [1, 0] ∧
    Event.serviceEnded Mode.shutdown "b" (some (JsError.thrown 3)) ∈
      (runPass Mode.shutdown exC4a).1.trace ∧
    shutdownCallIds (runPass Mode.shutdown exC4b).1.calls = [1] ∧
    Event.serviceEnded Mode.shutdown "b"
      (some (JsError.globalTimeoutExceededError "Global timeout exceeded")) ∈
      (runPass Mode.shutdown exC4b).1.trace := by
  refine ⟨⟨by simp, by decide⟩, ?_, ?_, ?_, ?_⟩
  · exact (shutdown_failure_policy exC4a []
      [⟨0, "f", 5000, RaceOutcome.ok 1, RaceOutcome.ok 0⟩]
      ⟨1, "b", 5000, RaceOutcome.ok 2, RaceOutcome.err (JsError.thrown 3)⟩
      (by decide) (by decide) (by decide)).1 (by decide) (by decide)
  · exact (shutdown_failure_policy exC4a []
      [⟨0, "f", 5000, RaceOutcome.ok 1, RaceOutcome.ok 0⟩]
      ⟨1, "b", 5000, RaceOutcome.ok 2, RaceOutcome.err (JsError.thrown 3)⟩
      (by decide) (by decide) (by decide)).2.1 (JsError.thrown 3)
      (by decide) (by decide)
  · exact ((shutdown_failure_policy exC4b []
      [⟨0, "f", 5000, RaceOutcome.ok 1, RaceOutcome.ok 0⟩]
      ⟨1, "b", 5000, RaceOutcome.ok 2, RaceOutcome.globalTimedOut⟩
      (by decide) (by decide) (by decide)).2.2 (by decide)).1
  · exact ((shutdown_failure_policy exC4b []
      [⟨0, "f", 5000, RaceOutcome.ok 1, RaceOutcome.ok 0⟩]
      ⟨1, "b", 5000, RaceOutcome.ok 2, RaceOutcome.globalTimedOut⟩
      (by decide) (by decide) (by decide)).2.2 (by decide)).2

/-- C2: the shutdown triggered automatically by a boot failure is not
memoized, so a later `shutdown()` call executes the whole shutdown
procedure a second time: `shutdownStarted` is emitted twice and service
f's shutdown callable is invoked twice, contradicting the claim that the
shutdown body runs at most once per instance. -/
theorem auto_shutdown_bypasses_memoization :
    ((shutdown (boot exC2).1).1.trace.filter
      (fun ev => decide (ev = Event.started Mode.shutdown))).length = 2 ∧
    ((shutdown (boot exC2).1).1.calls.filter
      (fun c => c.mode.isShutdown && decide (c.id = 0))).length = 2 := by
  decide

/-- C5: a shutdown pass with a non-global per-service failure still emits
`shutdownEnded` with no error at all (the empty payload of line 227) —
there is no aggregate-error collection — and a failed boot pass emits
`bootEnded` carrying the single raw error that aborted the loop (line 232)
rather than an aggregate of the pass's failures. -/
theorem shutdownEnded_carries_no_aggregate :
    Event.serviceEnded Mode.shutdown "b" (some (JsError.thrown 3)) ∈
      (shutdown (boot exC5).1).1.trace ∧
    (shutdown (boot exC5).1).1.trace.getLast? =
      some (Event.ended Mode.shutdown none) ∧
    Event.ended Mode.boot (some (JsError.thrown 7)) ∈
      (boot exC5b).1.trace := by
  decide

/-- C6: the error delivered with `{mode}ServiceEnded` is the raw cause
itself, not a `ServiceLifecycleError(name, mode, cause)` wrapper: service
b's boot failure event carries the raw thrown value, and service f's
per-service shutdown timeout is delivered as the fixed
`Error("Service boot timeout exceeded")` (which says boot even in shutdown
mode and carries no name, mode or timeout), not as a
`ServiceTimeoutExceeded(name, mode, timeout)` value. -/
theorem service_errors_delivered_raw :
    Event.serviceEnded Mode.boot "b" (some (JsError.thrown 7)) ∈
      (boot exC6).1.trace ∧
    Event.serviceEnded Mode.boot "b"
      (some (JsError.serviceLifecycleError "b" Mode.boot
        (JsError.thrown 7))) ∉ (boot exC6).1.trace ∧
    Event.serviceEnded Mode.shutdown "f"
      (some (JsError.plain "Service boot timeout exceeded")) ∈
      (boot exC6).1.trace ∧
    Event.serviceEnded Mode.shutdown "f"
      (some (JsError.serviceTimeoutExceededError "f" Mode.shutdown 5000)) ∉
      (boot exC6).1.trace := by
  decide

/-- C7: after a shutdown pass aborted by the global shutdown timeout,
`booted` is still true — the catch path of lines 228-237 never assigns
`#booted`, so the flag keeps the value the successful boot gave it,
contradicting the claim that booted is false after any aborted pass. -/
theorem booted_remains_true_after_aborted_shutdown :
    (boot exC7).1.booted = true ∧
    (shutdown (boot exC7).1).1.booted = true ∧
    Event.ended Mode.shutdown
      (some (JsError.globalTimeoutExceededError "Global timeout exceeded")) ∈
      (shutdown (boot exC7).1).1.trace := by
  decide

/-- C8: handlers are stored unwrapped, so a throwing handler destabilizes
the lifecycle: with a throwing `bootEnded` handler the promise returned by
`boot` rejects (the handler's second throw escapes the catch block of
lines 228-237) and `bootEnded` is emitted twice; with a throwing
`bootStarted` handler the whole boot pass is aborted before any service
boot callable is invoked. -/
theorem boot_rejects_when_handler_throws :
    (boot exC8).2 = some (JsError.thrown 9) ∧
    ((boot exC8).1.trace.filter
      (fun ev => decide (ev.key = EventKey.bootEnded))).length = 2 ∧
    (boot exC8b).1.calls = [] ∧
    (boot exC8b).2 = none := by
  decide

/-- C9: `#executeLifecycle` never clears any instance state: after the
boot pass the staged list still holds the consumed registration, and after
the shutdown pass the handler table, the staged list and the active list
are all still non-empty, contradicting the claimed teardown. -/
theorem no_teardown_clearing :
    (boot exC9).1.serviceRegistrationsStaged.length = 1 ∧
    (shutdown (boot exC9).1).1.eventsHandlers.length = 1 ∧
    (shutdown (boot exC9).1).1.serviceRegistrationsStaged.length = 1 ∧
    (shutdown (boot exC9).1).1.serviceRegistrations.length = 1 := by
  decide

/-- C10: `registerService` performs no name-uniqueness check: both same-
name registrations are staged and boot, both are appended to the active
list, the later boot result overwrites the earlier entry in the results
map (`getService` returns 2), and during shutdown both shutdown callables
run with whatever the map holds for the name at that moment — the first
(reverse order) receives the surviving result 2, and after that entry is
deleted the second receives nothing. -/
theorem duplicate_names_unchecked :
    exC10.serviceRegistrationsStaged.map (fun r => r.name) = ["a", "a"] ∧
    (boot exC10).1.serviceRegistrations.map (fun r => r.id) = [0, 1] ∧
    getService (boot exC10).1 "a" = some 2 ∧
    ((shutdown (boot exC10).1).1.calls.filter
      (fun c => c.mode.isShutdown)) =
      [⟨Mode.shutdown, 1, "a", some 2⟩, ⟨Mode.shutdown, 0, "a", none⟩] := by
  decide

end ProcessLifecycle
